import Mathlib

/-!
Verification of the Pantrii recipe-extraction pipeline.

This file gives a shallow embedding of the pipeline implemented in
`src/lib/geminiVision.ts`, `src/lib/recipeTaxonomy.ts` and
`src/lib/recipeCache.ts`, and proves or refutes the frozen claims about it.

Modelling conventions:
* Untrusted model output (the payload handed to `validateAndNormalizeRecipe`)
  is a JSON value (`Json`).  JavaScript numbers are modelled as `Int`; every
  numeric value the pipeline manipulates is an integer in all inputs of
  interest, and `Math.round` on an integer is the identity.
* A JavaScript `TypeError` (property access on `null`) is modelled with
  `Except JsError`.  Property access on a non-null non-object yields
  `undefined`, which we conflate with `Json.null` (the two are
  indistinguishable to the truthiness and `typeof` tests this code performs).
* Case conversion is modelled on the ASCII range, matching the source's own
  letter test `/[^a-zA-Z]/`.
* The two network calls (primary extraction, nutrition estimation) are
  oracles supplied through an `Env`: each attempt yields either a transport
  failure or a parsed JSON payload; the estimation sub-call yields one of the
  observable outcome shapes of `estimateNutritionFromIngredients`.
-/

namespace Pantrii

/-! ## JSON values and JavaScript primitives -/

/-- JSON value, the shape of a parsed model response. -/
inductive Json where
  | null
  | bool (b : Bool)
  | num (n : Int)
  | str (s : String)
  | arr (elems : List Json)
  | obj (fields : List (String × Json))

/-- JavaScript truthiness. `undefined` is conflated with `null`. -/
def jsTruthy : Json → Bool
  | Json.null => false
  | Json.bool b => b
  | Json.num n => n != 0
  | Json.str s => !s.isEmpty
  | Json.arr _ => true
  | Json.obj _ => true

/-- Last-wins lookup in an object's field list (duplicate keys in parsed JSON
keep the last occurrence, as `JSON.parse` does). -/
def lookupLast (fields : List (String × Json)) (k : String) : Option Json :=
  match fields with
  | [] => none
  | (k', v) :: rest =>
    match lookupLast rest k with
    | some w => some w
    | none => if k' == k then some v else none

/-- Total property access: on `null` (where JavaScript would throw) and on
non-objects it returns `Json.null` (standing for `undefined`).  Callers that
can actually reach the throwing case test for `Json.null` separately. -/
def getFieldD (v : Json) (k : String) : Json :=
  match v with
  | Json.obj fields => (lookupLast fields k).getD Json.null
  | _ => Json.null

/-- JavaScript `a || b`. -/
def jsOr (a b : Json) : Json :=
  if jsTruthy a then a else b

/-- String conversion of a primitive, as `String(v)` (array elements that are
null print as the empty string inside a join). -/
def jsPrimToString : Json → String
  | Json.null => "null"
  | Json.bool b => if b then "true" else "false"
  | Json.num n => toString n
  | Json.str s => s
  | Json.arr _ => ""
  | Json.obj _ => "[object Object]"

/-- String conversion, as JavaScript `String(v)`.  Arrays join their elements
with commas; nesting deeper than one level does not occur in any input this
development evaluates, so element conversion is the primitive one. -/
def jsToString : Json → String
  | Json.arr xs =>
    String.intercalate "," (xs.map (fun x =>
      match x with
      | Json.null => ""
      | y => jsPrimToString y))
  | v => jsPrimToString v

/-- Whitespace for `String.prototype.trim` and the regex class `\s`
(the characters that occur in practice; all are fixed points of the case
maps below). -/
def isJsWs (c : Char) : Bool :=
  c == ' ' || c == '\t' || c == '\n' || c == '\r' ||
  c == '\x0b' || c == '\x0c' || c == ' ' || c == '﻿'

/-- JavaScript `String.prototype.trim`. -/
def jsTrim (s : String) : String :=
  ⟨((s.data.dropWhile isJsWs).reverse.dropWhile isJsWs).reverse⟩

/-! ## ASCII case maps

Spelled out letter by letter so that every lemma about them is a finite case
split.  They agree with JavaScript `toLowerCase`/`toUpperCase` on the ASCII
range, which is the range the source's own letter filter `/[^a-zA-Z]/`
restricts attention to. -/

/-- Lower-case an ASCII letter; every other character is unchanged. -/
def lcChar : Char → Char
  | 'A' => 'a' | 'B' => 'b' | 'C' => 'c' | 'D' => 'd' | 'E' => 'e'
  | 'F' => 'f' | 'G' => 'g' | 'H' => 'h' | 'I' => 'i' | 'J' => 'j'
  | 'K' => 'k' | 'L' => 'l' | 'M' => 'm' | 'N' => 'n' | 'O' => 'o'
  | 'P' => 'p' | 'Q' => 'q' | 'R' => 'r' | 'S' => 's' | 'T' => 't'
  | 'U' => 'u' | 'V' => 'v' | 'W' => 'w' | 'X' => 'x' | 'Y' => 'y'
  | 'Z' => 'z'
  | c => c

/-- Upper-case an ASCII letter; every other character is unchanged. -/
def ucChar : Char → Char
  | 'a' => 'A' | 'b' => 'B' | 'c' => 'C' | 'd' => 'D' | 'e' => 'E'
  | 'f' => 'F' | 'g' => 'G' | 'h' => 'H' | 'i' => 'I' | 'j' => 'J'
  | 'k' => 'K' | 'l' => 'L' | 'm' => 'M' | 'n' => 'N' | 'o' => 'O'
  | 'p' => 'P' | 'q' => 'Q' | 'r' => 'R' | 's' => 'S' | 't' => 'T'
  | 'u' => 'U' | 'v' => 'V' | 'w' => 'W' | 'x' => 'X' | 'y' => 'Y'
  | 'z' => 'Z'
  | c => c

/-- ASCII letter test, the characters kept by the regex `/[^a-zA-Z]/g`
replacement in `toTitleCase`. -/
def isAsciiLetter (c : Char) : Bool :=
  (65 ≤ c.toNat && c.toNat ≤ 90) || (97 ≤ c.toNat && c.toNat ≤ 122)

/-- ASCII upper-case letter test: for an ASCII letter this is exactly the
source's `c === c.toUpperCase()` check. -/
def isAsciiUpper (c : Char) : Bool :=
  65 ≤ c.toNat && c.toNat ≤ 90

/-! ## Recipe taxonomy (`recipeTaxonomy.ts`) -/

/-- Values of the `GenreOfFood` enum, in declaration order. -/
def GENRE_OF_FOOD_OPTIONS : List String :=
  ["American", "Italian", "Mexican", "Tex-Mex", "Latin American", "Caribbean",
   "French", "Spanish", "Greek", "Mediterranean", "Middle Eastern", "Indian",
   "Chinese", "Japanese", "Korean", "Thai", "Vietnamese", "Filipino",
   "African", "Ethiopian", "Moroccan", "German", "Eastern European",
   "British", "Fusion", "International", "Plant-Based", "Vegan",
   "Vegetarian", "Gluten-Free", "Keto"]

/-- Values of the `TypeOfDish` enum, in declaration order. -/
def TYPE_OF_DISH_OPTIONS : List String :=
  ["Breakfast", "Brunch", "Lunch", "Dinner", "Snack", "Dessert", "Appetizer",
   "Side Dish", "Main Course", "Soup", "Salad", "Sandwich", "Pasta", "Pizza",
   "Rice Dish", "Noodles", "Casserole", "Stir-Fry", "Bowl", "Wrap", "Taco",
   "Burger", "Seafood", "Poultry", "Beef", "Pork", "Vegetarian Dish",
   "Vegan Dish", "Bread", "Muffins", "Cookies", "Cake", "Brownies", "Bars",
   "Pie", "Smoothie", "Sauce", "Dressing", "Dip", "Marinade"]

/-- Values of the `MethodOfCooking` enum, in declaration order. -/
def METHOD_OF_COOKING_OPTIONS : List String :=
  ["Stove", "Oven", "Microwave", "Air Fryer", "Instant Pot", "Grill",
   "Slow Cooker", "No-Cook"]

/-- Type guard `isValidGenreOfFood`. -/
def isValidGenreOfFood (value : String) : Bool :=
  GENRE_OF_FOOD_OPTIONS.contains value

/-- Type guard `isValidTypeOfDish`. -/
def isValidTypeOfDish (value : String) : Bool :=
  TYPE_OF_DISH_OPTIONS.contains value

/-- Type guard `isValidMethodOfCooking`. -/
def isValidMethodOfCooking (value : String) : Bool :=
  METHOD_OF_COOKING_OPTIONS.contains value

/-- Helper to validate and filter a `typeOfDish` array: keep members of the
vocabulary, in order, and `slice(0, 3)`. -/
def validateTypeOfDishArray (values : List String) : List String :=
  (values.filter isValidTypeOfDish).take 3

/-! ## Title casing (`toTitleCase` in `geminiVision.ts`) -/

/-- JavaScript `split(sep)` on a single-character separator. -/
def splitOnChar (sep : Char) : List Char → List (List Char)
  | [] => [[]]
  | c :: rest =>
    let r := splitOnChar sep rest
    if c = sep then [] :: r
    else
      match r with
      | w :: ws => (c :: w) :: ws
      | [] => [[c]]

/-- Join a word list with single spaces, as `join(' ')`. -/
def joinSpace (ws : List (List Char)) : List Char :=
  match ws with
  | [] => []
  | [w] => w
  | w :: rest => w ++ ' ' :: joinSpace rest

/-- First character upper-cased, as `word.charAt(0).toUpperCase() + word.slice(1)`. -/
def capitalize1 : List Char → List Char
  | [] => []
  | c :: rest => ucChar c :: rest

/-- The conversion branch of `toTitleCase`: lower-case the whole string, split
on spaces, capitalize each word, and re-join. -/
def titleCaseConvert (s : String) : String :=
  ⟨joinSpace (((splitOnChar ' ' (s.data.map lcChar)).map capitalize1))⟩

/-- Model of `toTitleCase` (`geminiVision.ts`): convert to title case only when
more than half of the ASCII letters are upper-case. -/
def toTitleCase (s : String) : String :=
  if s.isEmpty then s
  else
    let letters := s.data.filter isAsciiLetter
    if letters.length = 0 then s
    else if 2 * (letters.filter isAsciiUpper).length > letters.length then
      titleCaseConvert s
    else s

/-! ## Recipe data model (`RecipeSchema` in `geminiVision.ts`) -/

/-- One ingredient entry; all sub-fields default to the empty string. -/
structure Ingredient where
  quantity : String
  unit : String
  item : String
  notes : String
deriving DecidableEq, Repr

/-- One instruction entry. -/
structure Instruction where
  step_number : Int
  text : String
deriving DecidableEq, Repr

/-- Per-serving nutrition facts, each field independently nullable. -/
structure Nutrition where
  calories : Option Int
  protein_g : Option Int
  fat_g : Option Int
  carbs_g : Option Int
deriving DecidableEq, Repr

/-- Normalized recipe record.  The two provenance fields are optional in the
TypeScript interface; `false` / `none` play the role of `undefined`. -/
structure Recipe where
  recipe_name : String
  author : Option String
  description : Option String
  link : Option String
  servings : Option Int
  prep_time_minutes : Option Int
  cook_time_minutes : Option Int
  ingredients : List Ingredient
  instructions : List Instruction
  nutrition : Option Nutrition
  nutrition_ai_estimated : Bool := false
  nutrition_servings_used : Option Int := none
  genreOfFood : Option String
  typeOfDish : Option (List String)
  methodOfCooking : Option String
  authorsNotes : Option String
deriving DecidableEq, Repr

/-- The one observable JavaScript failure of the normalizer: a `TypeError`
from reading a property of `null`, or from calling `.replace` on a truthy
non-string `recipe_name`. -/
inductive JsError where
  | typeError
deriving DecidableEq, Repr

/-! ## Schema normalizer (`validateAndNormalizeRecipe`) -/

/-- String field rule `data.k ? String(data.k).trim() : null`. -/
def strFieldComp (d : Json) (k : String) : Option String :=
  let v := getFieldD d k
  if jsTruthy v then some (jsTrim (jsToString v)) else none

/-- Numeric field rule `typeof data.k === 'number' ? data.k : null`. -/
def numFieldComp (d : Json) (k : String) : Option Int :=
  match getFieldD d k with
  | Json.num n => some n
  | _ => none

/-- Author rule: trim first, then title-case only when the trimmed value is
still truthy (`rawAuthor ? toTitleCase(rawAuthor) : null`). -/
def authorComp (d : Json) : Option String :=
  match strFieldComp d "author" with
  | some s => if s.isEmpty then none else some (toTitleCase s)
  | none => none

/-- Recipe-name rule.  `data.recipe_name || 'Untitled Recipe'` is always
truthy, and `toTitleCase` throws a `TypeError` (at `text.replace`) when the
value it receives is not a string. -/
def recipeNameComp (d : Json) : Except JsError String :=
  match jsOr (getFieldD d "recipe_name") (Json.str "Untitled Recipe") with
  | Json.str s => Except.ok (toTitleCase s)
  | _ => Except.error JsError.typeError

/-- One ingredient entry.  Reading `ing.quantity` from a `null` array entry
throws. -/
def normalizeIngredient (ing : Json) : Except JsError Ingredient :=
  match ing with
  | Json.null => Except.error JsError.typeError
  | _ =>
    Except.ok
      { quantity := jsToString (jsOr (getFieldD ing "quantity") (Json.str ""))
        unit := jsToString (jsOr (getFieldD ing "unit") (Json.str ""))
        item := jsToString (jsOr (getFieldD ing "item") (Json.str ""))
        notes := jsToString (jsOr (getFieldD ing "notes") (Json.str "")) }

/-- Ingredient list rule: map over the array, otherwise `[]`. -/
def normIngrList : List Json → Except JsError (List Ingredient)
  | [] => Except.ok []
  | x :: xs =>
    match normalizeIngredient x with
    | Except.error e => Except.error e
    | Except.ok i =>
      match normIngrList xs with
      | Except.error e => Except.error e
      | Except.ok rest => Except.ok (i :: rest)

/-- Step number of one instruction entry:
`typeof inst.step_number === 'number' ? inst.step_number : index + 1`. -/
def stepNumOf (inst : Json) (idx : Nat) : Int :=
  match getFieldD inst "step_number" with
  | Json.num n => n
  | _ => Int.ofNat (idx + 1)

/-- Text of one instruction entry: `String(inst.text || inst || '')`. -/
def instrTextOf (inst : Json) : String :=
  jsToString (jsOr (jsOr (getFieldD inst "text") inst) (Json.str ""))

/-- Instruction list mapping, carrying the 0-based index.  A `null` entry
throws at the `inst.step_number` read. -/
def normInstrList (idx : Nat) : List Json → Except JsError (List Instruction)
  | [] => Except.ok []
  | x :: xs =>
    match x with
    | Json.null => Except.error JsError.typeError
    | inst =>
      match normInstrList (idx + 1) xs with
      | Except.error e => Except.error e
      | Except.ok rest =>
        Except.ok ({ step_number := stepNumOf inst idx, text := instrTextOf inst } :: rest)

/-- Filter `inst.text && inst.text.trim().length > 0`: only keep instructions
whose text is non-empty after trimming. -/
def instrKeep (i : Instruction) : Bool :=
  !i.text.isEmpty && !(jsTrim i.text).isEmpty

/-- Instructions rule: map with indices, then drop empty-text entries;
non-arrays give `[]`. -/
def instructionsComp (d : Json) : Except JsError (List Instruction) :=
  match getFieldD d "instructions" with
  | Json.arr xs =>
    match normInstrList 0 xs with
    | Except.error e => Except.error e
    | Except.ok l => Except.ok (l.filter instrKeep)
  | _ => Except.ok []

/-- Ingredients rule. -/
def ingredientsComp (d : Json) : Except JsError (List Ingredient) :=
  match getFieldD d "ingredients" with
  | Json.arr xs => normIngrList xs
  | _ => Except.ok []

/-- Nutrition rule: when `data.nutrition` is truthy (hence not `null`, so no
throw is possible), read the four numeric sub-fields with the `typeof`
test. -/
def nutritionComp (d : Json) : Option Nutrition :=
  let v := getFieldD d "nutrition"
  if jsTruthy v then
    some
      { calories := numFieldComp v "calories"
        protein_g := numFieldComp v "protein_g"
        fat_g := numFieldComp v "fat_g"
        carbs_g := numFieldComp v "carbs_g" }
  else none

/-- Genre rule `data.genreOfFood && isValidGenreOfFood(data.genreOfFood)`;
`includes` can only succeed on a string. -/
def genreComp (d : Json) : Option String :=
  match getFieldD d "genreOfFood" with
  | Json.str s => if !s.isEmpty && isValidGenreOfFood s then some s else none
  | _ => none

/-- Method rule, same shape as the genre rule. -/
def methodComp (d : Json) : Option String :=
  match getFieldD d "methodOfCooking" with
  | Json.str s => if !s.isEmpty && isValidMethodOfCooking s then some s else none
  | _ => none

/-- Dish-type rule: only arrays are validated.  A non-string array element can
never pass the `includes` membership test, so dropping non-strings before the
filter leaves the result unchanged. -/
def typeOfDishComp (d : Json) : Option (List String) :=
  match getFieldD d "typeOfDish" with
  | Json.arr xs =>
    some (validateTypeOfDishArray (xs.filterMap (fun v =>
      match v with
      | Json.str s => some s
      | _ => none)))
  | _ => none

/-- Body of the normalizer for a non-`null` payload. -/
def normalizeCore (d : Json) : Except JsError Recipe :=
  match recipeNameComp d with
  | Except.error e => Except.error e
  | Except.ok rn =>
    match ingredientsComp d with
    | Except.error e => Except.error e
    | Except.ok igs =>
      match instructionsComp d with
      | Except.error e => Except.error e
      | Except.ok ins =>
        Except.ok
          { recipe_name := rn
            author := authorComp d
            description := strFieldComp d "description"
            link := strFieldComp d "link"
            servings := numFieldComp d "servings"
            prep_time_minutes := numFieldComp d "prep_time_minutes"
            cook_time_minutes := numFieldComp d "cook_time_minutes"
            ingredients := igs
            instructions := ins
            nutrition := nutritionComp d
            genreOfFood := genreComp d
            typeOfDish := typeOfDishComp d
            methodOfCooking := methodComp d
            authorsNotes := strFieldComp d "authorsNotes" }

/-- Model of `validateAndNormalizeRecipe`: a `null` payload throws at the very
first property read; any other payload is normalized by `normalizeCore`. -/
def validateAndNormalizeRecipe (data : Json) : Except JsError Recipe :=
  match data with
  | Json.null => Except.error JsError.typeError
  | d => normalizeCore d

/-! ## Serving-count parsing

Model of the regex matches `servingsStr.match(/(\d+)\s*[-–—to]\s*(\d+)/i)`
and `servingsStr.match(/(\d+)/)`.  Note that `[-–—to]` is a character class:
it matches a single character out of `-`, `–`, `—`, `t`, `o` (and, with the
`i` flag, `T`, `O`).  Backtracking cannot help the engine here because the
digit, whitespace and separator character sets are pairwise disjoint, so the
greedy left-to-right scan below matches the JavaScript engine exactly. -/

/-- One character of the class `[-–—to]` with the `i` flag. -/
def isRangeSep (c : Char) : Bool :=
  c == '-' || c == '–' || c == '—' || c == 't' || c == 'o' || c == 'T' || c == 'O'

/-- Consume a maximal digit run, accumulating its value. -/
def takeDigitsAux (acc : Nat) : List Char → Nat × List Char
  | [] => (acc, [])
  | c :: rest =>
    if c.isDigit then takeDigitsAux (acc * 10 + (c.toNat - 48)) rest
    else (acc, c :: rest)

/-- Match `(\d+)` at the head of the input: its value and the rest. -/
def takeDigits : List Char → Option (Nat × List Char)
  | [] => none
  | c :: rest =>
    if c.isDigit then some (takeDigitsAux (c.toNat - 48) rest) else none

/-- Match `(\d+)\s*[-–—to]\s*(\d+)` anchored at the head of the input. -/
def matchRangeAt (l : List Char) : Option (Nat × Nat) :=
  match takeDigits l with
  | none => none
  | some (mn, r1) =>
    match r1.dropWhile isJsWs with
    | [] => none
    | c :: r3 =>
      if isRangeSep c then
        match takeDigits (r3.dropWhile isJsWs) with
        | some (mx, _) => some (mn, mx)
        | none => none
      else none

/-- Leftmost match of the range pattern anywhere in the input. -/
def findRange : List Char → Option (Nat × Nat)
  | [] => none
  | l@(_ :: rest) =>
    match matchRangeAt l with
    | some p => some p
    | none => findRange rest

/-- Leftmost match of `(\d+)` anywhere in the input. -/
def findFirstNat : List Char → Option Nat
  | [] => none
  | l@(_ :: rest) =>
    match takeDigits l with
    | some (n, _) => some n
    | none => findFirstNat rest

/-- JavaScript runtime value of the `servings` argument: the declared type is
`number | null`, but the code defensively handles strings too. -/
inductive JsPrim where
  | null
  | num (n : Int)
  | str (s : String)
deriving DecidableEq, Repr

/-- Embed the normalized (`number | null`) servings value. -/
def jsPrimOfOptInt : Option Int → JsPrim
  | none => JsPrim.null
  | some n => JsPrim.num n

/-- Rounded average of a range, `Math.round((min + max) / 2)`: JavaScript
rounds halves up, which on naturals is `(min + max + 1) / 2`. -/
def roundedAvg (mn mx : Nat) : Int :=
  Int.ofNat ((mn + mx + 1) / 2)

/-- Serving-count parsing inside `estimateNutritionFromIngredients`
(lines 469–497): `null` defaults to 4, a number is used as-is, and a string
is searched for a range and then for a single number, defaulting to 4. -/
def parseServingsForNutrition : JsPrim → Int
  | JsPrim.null => 4
  | JsPrim.num n => n
  | JsPrim.str s =>
    match findRange s.data with
    | some (mn, mx) => roundedAvg mn mx
    | none =>
      match findFirstNat s.data with
      | some n => Int.ofNat n
      | none => 4

/-- Serving-count parsing inside `extractRecipeFromImage` (lines 335–355):
identical except that `null` and an unparseable string stay `null`. -/
def parseServingsUsedExtract : JsPrim → Option Int
  | JsPrim.null => none
  | JsPrim.num n => some n
  | JsPrim.str s =>
    match findRange s.data with
    | some (mn, mx) => some (roundedAvg mn mx)
    | none =>
      match findFirstNat s.data with
      | some n => some (Int.ofNat n)
      | none => none

/-! ## Nutrition estimation sub-flow (`estimateNutritionFromIngredients`) -/

/-- The four nutrition sub-fields, in the order the orchestrator checks
them. -/
inductive NutField where
  | calories
  | protein_g
  | fat_g
  | carbs_g
deriving DecidableEq, Repr

/-- Result shape of the estimation call. -/
structure EstResult where
  calories : Option Int
  protein_g : Option Int
  fat_g : Option Int
  carbs_g : Option Int
  servings_used : Option Int
deriving DecidableEq, Repr

/-- Observable outcomes of the estimation network call and response parsing:
the missing API key throws out of the function; a 429 returns nulls with the
assumed serving count; any other HTTP error or an unparseable response is
swallowed by the outer catch; a parsed JSON object carries the per-field
`typeof number` values; the regex fallback carries the per-field digit
matches. -/
inductive EstApiOutcome where
  | keyMissing
  | rateLimit
  | httpError
  | parseFail
  | parsed (calories protein_g fat_g carbs_g : Option Int)
  | parseFallback (calories protein_g fat_g carbs_g : Option Nat)
deriving DecidableEq, Repr

/-- Model of `estimateNutritionFromIngredients`: given the call outcome, the
`servings` argument and the list of fields to estimate, produce the value the
function returns (or the exception it lets escape).  Requested fields keep
their parsed number (`Math.round` is the identity on integers); fields that
were not requested are always `null`. -/
def estimateNutritionFromIngredients (out : EstApiOutcome) (servings : Option Int)
    (missing : List NutField) : Except Unit EstResult :=
  let servingsNumber : Int := parseServingsForNutrition (jsPrimOfOptInt servings)
  let sel : NutField → Option Int → Option Int := fun fld v =>
    if missing.contains fld then v else none
  match out with
  | EstApiOutcome.keyMissing => Except.error ()
  | EstApiOutcome.rateLimit =>
    Except.ok ⟨none, none, none, none, some servingsNumber⟩
  | EstApiOutcome.httpError =>
    Except.ok ⟨none, none, none, none, servings⟩
  | EstApiOutcome.parseFail =>
    Except.ok ⟨none, none, none, none, servings⟩
  | EstApiOutcome.parsed c p f cb =>
    Except.ok ⟨sel NutField.calories c, sel NutField.protein_g p,
               sel NutField.fat_g f, sel NutField.carbs_g cb, some servingsNumber⟩
  | EstApiOutcome.parseFallback c p f cb =>
    if c.isNone && p.isNone && f.isNone && cb.isNone then
      Except.ok ⟨none, none, none, none, servings⟩
    else
      Except.ok ⟨sel NutField.calories (c.map Int.ofNat),
                 sel NutField.protein_g (p.map Int.ofNat),
                 sel NutField.fat_g (f.map Int.ofNat),
                 sel NutField.carbs_g (cb.map Int.ofNat), some servingsNumber⟩

/-- Flattened per-field value of an optional nutrition object, the meaning of
`existingNutrition?.field`. -/
def nutVal (ex : Option Nutrition) : NutField → Option Int
  | NutField.calories => ex.bind Nutrition.calories
  | NutField.protein_g => ex.bind Nutrition.protein_g
  | NutField.fat_g => ex.bind Nutrition.fat_g
  | NutField.carbs_g => ex.bind Nutrition.carbs_g

/-- Nullish coalescing `a ?? b` on already-flattened values. -/
def jsNullish (a b : Option Int) : Option Int :=
  match a with
  | some v => some v
  | none => b

/-- The merge at lines 385–390: existing non-null values win, estimated
values fill the null slots. -/
def mergeNutrition (ex : Option Nutrition) (est : EstResult) : Nutrition :=
  { calories := jsNullish (nutVal ex NutField.calories) est.calories
    protein_g := jsNullish (nutVal ex NutField.protein_g) est.protein_g
    fat_g := jsNullish (nutVal ex NutField.fat_g) est.fat_g
    carbs_g := jsNullish (nutVal ex NutField.carbs_g) est.carbs_g }

/-- Fields that are missing and need estimation, in source order (lines
357–368). -/
def missingNutritionFields (ex : Option Nutrition) : List NutField :=
  match ex with
  | none => [NutField.calories, NutField.protein_g, NutField.fat_g, NutField.carbs_g]
  | some o =>
    (if o.calories = none then [NutField.calories] else []) ++
    (if o.protein_g = none then [NutField.protein_g] else []) ++
    (if o.fat_g = none then [NutField.fat_g] else []) ++
    (if o.carbs_g = none then [NutField.carbs_g] else [])

/-- Nutrition-completion sub-flow of `attemptExtraction` (lines 335–408):
parse the serving count, collect the missing fields, and, when some are
missing, run the estimation call; a thrown estimation error keeps the recipe
untouched; otherwise merge and set the provenance flags only when at least
one estimated value is present. -/
def postProcess (out : EstApiOutcome) (r : Recipe) : Recipe :=
  let servingsUsed := parseServingsUsedExtract (jsPrimOfOptInt r.servings)
  let missing := missingNutritionFields r.nutrition
  if missing.isEmpty then r
  else
    match estimateNutritionFromIngredients out servingsUsed missing with
    | Except.error _ => r
    | Except.ok est =>
      let merged := mergeNutrition r.nutrition est
      let hasEstimatedValues :=
        est.calories.isSome || est.protein_g.isSome ||
        est.fat_g.isSome || est.carbs_g.isSome
      if hasEstimatedValues then
        { r with nutrition := some merged
                 nutrition_ai_estimated := true
                 nutrition_servings_used := jsNullish est.servings_used servingsUsed }
      else
        { r with nutrition := some merged }

/-! ## Extraction orchestrator (`extractRecipeFromImage`) -/

/-- Collapsed failure of the primary model call for one attempt: any HTTP or
transport failure (fallback chain exhausted, rate limit, invalid response
structure), or a response that stayed unparseable after truncation repair. -/
inductive PrimError where
  | api
  | parse
deriving DecidableEq, Repr

/-- Errors `attemptExtraction` can throw. -/
inductive ExtractError where
  | primary (e : PrimError)
  | normalizeFailure (e : JsError)
  | instructionsMissingRetry
  | terminalNoInstructions
deriving DecidableEq, Repr

/-- Oracle for the two network calls: per attempt number, the outcome of the
primary call up to JSON parsing, and the outcome of the nutrition-estimation
sub-call. -/
structure Env where
  attemptRaw : Nat → Except PrimError Json
  estimate : Nat → EstApiOutcome

/-- One extraction attempt (`attemptExtraction`): ask the model, normalize,
throw `INSTRUCTIONS_MISSING_RETRY` when the normalized instruction list is
empty, and otherwise run the nutrition-completion sub-flow. -/
def attemptExtraction (env : Env) (attemptNumber : Nat) : Except ExtractError Recipe :=
  match env.attemptRaw attemptNumber with
  | Except.error e => Except.error (ExtractError.primary e)
  | Except.ok j =>
    match validateAndNormalizeRecipe j with
    | Except.error e => Except.error (ExtractError.normalizeFailure e)
    | Except.ok nr =>
      if nr.instructions.isEmpty then Except.error ExtractError.instructionsMissingRetry
      else Except.ok (postProcess (env.estimate attemptNumber) nr)

/-- Second loop iteration of `extractRecipeFromImage`: on attempt 2 any error
is rethrown and an empty instruction list is terminal. -/
def secondAttempt (env : Env) : Except ExtractError Recipe × Nat :=
  match attemptExtraction env 2 with
  | Except.ok r =>
    if r.instructions.isEmpty then (Except.error ExtractError.terminalNoInstructions, 2)
    else (Except.ok r, 2)
  | Except.error e => (Except.error e, 2)

/-- The retry loop of `extractRecipeFromImage`, instrumented with the number
of extraction attempts performed.  On attempt 1 an
`INSTRUCTIONS_MISSING_RETRY` continues to attempt 2; any other attempt-1
error records `lastError` and the loop also continues to attempt 2. -/
def extractRecipeFromImageRun (env : Env) : Except ExtractError Recipe × Nat :=
  match attemptExtraction env 1 with
  | Except.ok r =>
    if r.instructions.isEmpty then secondAttempt env
    else (Except.ok r, 1)
  | Except.error _ => secondAttempt env

/-- Model of `extractRecipeFromImage`: the value returned to the caller. -/
def extractRecipeFromImage (env : Env) : Except ExtractError Recipe :=
  (extractRecipeFromImageRun env).1

/-! ## Recipe cache (`recipeCache.ts`) -/

/-- A persisted `Recipe` row.  The `ingredients`, `instructions` and
`nutrition` columns hold serialized text blobs; they are modelled by the
structured values those blobs encode, which for `nutrition` is exactly the
four-field object `saveCachedRecipe` stringifies — the provenance flags are
not part of it. -/
structure RecipeRow where
  recipe_name : String
  author : Option String
  description : Option String
  link : Option String
  servings : Option Int
  prep_time_minutes : Option Int
  cook_time_minutes : Option Int
  ingredients : List Ingredient
  instructions : List Instruction
  nutrition : Option Nutrition
  genreOfFood : Option String
  typeOfDish : Option (List String)
  methodOfCooking : Option String
  authorsNotes : Option String
  fileHash : String
  userId : String
deriving DecidableEq, Repr

/-- JavaScript `value || null` on an optional string: an empty string is
falsy and collapses to null. -/
def strOrNull : Option String → Option String
  | some s => if s.isEmpty then none else some s
  | x => x

/-- Model of `saveCachedRecipe`: `prisma.recipe.create` appends a row.  Note
that the `nutrition` column receives `JSON.stringify(recipe.nutrition)` —
only the four numeric fields; `recipe.nutrition_ai_estimated` and
`recipe.nutrition_servings_used` are never written anywhere. -/
def saveCachedRecipe (store : List RecipeRow) (fileHash : String) (recipe : Recipe)
    (userId : String) : List RecipeRow :=
  store ++
    [{ recipe_name := recipe.recipe_name
       author := recipe.author
       description := recipe.description
       link := recipe.link
       servings := recipe.servings
       prep_time_minutes := recipe.prep_time_minutes
       cook_time_minutes := recipe.cook_time_minutes
       ingredients := recipe.ingredients
       instructions := recipe.instructions
       nutrition := recipe.nutrition
       genreOfFood := strOrNull recipe.genreOfFood
       typeOfDish := recipe.typeOfDish
       methodOfCooking := strOrNull recipe.methodOfCooking
       authorsNotes := strOrNull recipe.authorsNotes
       fileHash := fileHash
       userId := userId }]

/-- Model of `getCachedRecipe`: `findFirst` on the hash, then parse the blobs
back.  `nutrition_ai_estimated` is read as `nutritionData?._ai_estimated ||
false` and `nutrition_servings_used` as `nutritionData?._servings_used ||
null`; the stored blob contains neither key, so they come back `false` and
`null`. -/
def getCachedRecipe (store : List RecipeRow) (fileHash : String) : Option Recipe :=
  match store.find? (fun row => row.fileHash == fileHash) with
  | none => none
  | some row =>
    some
      { recipe_name := row.recipe_name
        author := row.author
        description := row.description
        link := row.link
        servings := row.servings
        prep_time_minutes := row.prep_time_minutes
        cook_time_minutes := row.cook_time_minutes
        ingredients := row.ingredients
        instructions := row.instructions
        nutrition := row.nutrition
        nutrition_ai_estimated := false
        nutrition_servings_used := none
        genreOfFood := strOrNull row.genreOfFood
        typeOfDish := row.typeOfDish
        methodOfCooking := strOrNull row.methodOfCooking
        authorsNotes := strOrNull row.authorsNotes }

/-! ## Spec-side definitions

These definitions transcribe the spec's wording (not the source) and exist
only to be compared with the source-side definitions above. -/

/-- Spec wording: the number of alphabetic characters of the text. -/
def alphaCountSpec (s : String) : Nat :=
  (s.data.filter isAsciiLetter).length

/-- Spec wording: the number of upper-case (alphabetic) characters. -/
def upperCountSpec (s : String) : Nat :=
  (s.data.filter isAsciiUpper).length

/-- Spec wording: first letter of each space-separated token capitalized,
remainder lowercased. -/
def titleCaseSpec (s : String) : String :=
  ⟨joinSpace ((splitOnChar ' ' s.data).map (fun w =>
    match w with
    | [] => []
    | c :: rest => ucChar c :: rest.map lcChar))⟩

/-- Spec wording for the numeric normalization rule: the field's value when
the upstream value is a true number, `null` otherwise, with no
string-to-number parsing. -/
def specNumericField (d : Json) (k : String) : Option Int :=
  match getFieldD d k with
  | Json.num n => some n
  | _ => none

/-! ## Helper lemmas: case maps and title casing -/

theorem lcChar_eq_space_iff (c : Char) : lcChar c = ' ' ↔ c = ' ' := by
  unfold lcChar
  split <;> simp_all

theorem ucChar_lcChar (c : Char) : ucChar (lcChar c) = ucChar c := by
  unfold lcChar
  split <;> rfl

theorem isAsciiUpper_isAsciiLetter (c : Char) (h : isAsciiUpper c = true) :
    isAsciiLetter c = true := by
  simp only [isAsciiUpper, isAsciiLetter, Bool.and_eq_true, Bool.or_eq_true,
    decide_eq_true_eq] at *
  omega

theorem splitOnChar_ne_nil (sep : Char) (l : List Char) : splitOnChar sep l ≠ [] := by
  induction l with
  | nil => simp [splitOnChar]
  | cons c rest ih =>
    simp only [splitOnChar]
    split
    · simp
    · match h : splitOnChar sep rest with
      | [] => exact absurd h ih
      | w :: ws => simp

theorem splitOnChar_map_lcChar (l : List Char) :
    splitOnChar ' ' (l.map lcChar) = (splitOnChar ' ' l).map (List.map lcChar) := by
  induction l with
  | nil => rfl
  | cons c rest ih =>
    simp only [List.map_cons, splitOnChar, ih]
    by_cases hc : c = ' '
    · rw [if_pos ((lcChar_eq_space_iff c).mpr hc), if_pos hc]
      rfl
    · rw [if_neg (fun h => hc ((lcChar_eq_space_iff c).mp h)), if_neg hc]
      match h : splitOnChar ' ' rest with
      | [] => exact absurd h (splitOnChar_ne_nil ' ' rest)
      | w :: ws => simp

theorem capitalize1_map_lcChar (w : List Char) :
    capitalize1 (w.map lcChar) =
      (match w with
       | [] => []
       | c :: rest => ucChar c :: rest.map lcChar) := by
  cases w with
  | nil => rfl
  | cons c rest => simp [capitalize1, ucChar_lcChar]

theorem titleCaseConvert_eq_spec (s : String) : titleCaseConvert s = titleCaseSpec s := by
  unfold titleCaseConvert titleCaseSpec
  rw [splitOnChar_map_lcChar, List.map_map]
  have hf : (capitalize1 ∘ List.map lcChar) =
      (fun w : List Char =>
        match w with
        | [] => []
        | c :: rest => ucChar c :: rest.map lcChar) :=
    funext fun w => capitalize1_map_lcChar w
  rw [hf]

theorem filter_upper_filter_letter (l : List Char) :
    (l.filter isAsciiLetter).filter isAsciiUpper = l.filter isAsciiUpper := by
  induction l with
  | nil => rfl
  | cons c rest ih =>
    by_cases hu : isAsciiUpper c = true
    · simp [List.filter_cons, isAsciiUpper_isAsciiLetter c hu, hu, ih]
    · by_cases hl : isAsciiLetter c = true <;>
        simp [List.filter_cons, hl, hu, ih]

/-! ## Helper lemmas: normalizer -/

/-- Non-`null` test on a JSON value. -/
def jsonNonNull : Json → Bool
  | Json.null => false
  | _ => true

theorem normalizeIngredient_ok (x : Json) (h : jsonNonNull x = true) :
    ∃ i, normalizeIngredient x = Except.ok i := by
  cases x <;> simp_all [normalizeIngredient, jsonNonNull]

theorem normIngrList_ok (xs : List Json) (h : ∀ x ∈ xs, jsonNonNull x = true) :
    ∃ l, normIngrList xs = Except.ok l := by
  induction xs with
  | nil => exact ⟨[], rfl⟩
  | cons x rest ih =>
    obtain ⟨i, hi⟩ := normalizeIngredient_ok x (h x (List.mem_cons_self x rest))
    obtain ⟨l, hl⟩ := ih (fun y hy => h y (List.mem_cons_of_mem x hy))
    exact ⟨i :: l, by simp [normIngrList, hi, hl]⟩

theorem normInstrList_ok (idx : Nat) (xs : List Json)
    (h : ∀ x ∈ xs, jsonNonNull x = true) :
    ∃ l, normInstrList idx xs = Except.ok l := by
  induction xs generalizing idx with
  | nil => exact ⟨[], rfl⟩
  | cons x rest ih =>
    obtain ⟨l, hl⟩ := ih (idx + 1) (fun y hy => h y (List.mem_cons_of_mem x hy))
    have hx := h x (List.mem_cons_self x rest)
    cases x <;> simp_all [normInstrList, jsonNonNull]

theorem instructionsComp_keep (d : Json) (l : List Instruction)
    (h : instructionsComp d = Except.ok l) :
    ∀ i ∈ l, instrKeep i = true := by
  intro i hi
  unfold instructionsComp at h
  revert h
  split
  · intro h
    revert h
    split
    · intro h
      exact absurd h (by simp)
    · intro h
      cases h
      exact (List.mem_filter.mp hi).2
  · intro h
    cases h
    simp at hi

/-- Inversion of a successful normalization: all three fallible pieces were
successful and the result is the record they assemble. -/
theorem normalizeCore_ok_inv (d : Json) (r : Recipe) (h : normalizeCore d = Except.ok r) :
    ∃ rn igs ins,
      recipeNameComp d = Except.ok rn ∧
      ingredientsComp d = Except.ok igs ∧
      instructionsComp d = Except.ok ins ∧
      r = { recipe_name := rn
            author := authorComp d
            description := strFieldComp d "description"
            link := strFieldComp d "link"
            servings := numFieldComp d "servings"
            prep_time_minutes := numFieldComp d "prep_time_minutes"
            cook_time_minutes := numFieldComp d "cook_time_minutes"
            ingredients := igs
            instructions := ins
            nutrition := nutritionComp d
            genreOfFood := genreComp d
            typeOfDish := typeOfDishComp d
            methodOfCooking := methodComp d
            authorsNotes := strFieldComp d "authorsNotes" } := by
  unfold normalizeCore at h
  revert h
  split
  · intro h; cases h
  · split
    · intro h; cases h
    · split
      · intro h; cases h
      · intro h
        cases h
        refine ⟨_, _, _, ?_, ?_, ?_, rfl⟩ <;> assumption

theorem validateAndNormalizeRecipe_ok_core (d : Json) (r : Recipe)
    (h : validateAndNormalizeRecipe d = Except.ok r) : normalizeCore d = Except.ok r := by
  unfold validateAndNormalizeRecipe at h
  revert h
  split
  · intro h; cases h
  · exact fun h => h

theorem normalize_instructions_keep (d : Json) (r : Recipe)
    (h : validateAndNormalizeRecipe d = Except.ok r) :
    ∀ i ∈ r.instructions, instrKeep i = true := by
  obtain ⟨rn, igs, ins, _, _, hins, hr⟩ :=
    normalizeCore_ok_inv d r (validateAndNormalizeRecipe_ok_core d r h)
  subst hr
  exact instructionsComp_keep d ins hins

theorem instrKeep_trim (i : Instruction) (h : instrKeep i = true) : jsTrim i.text ≠ "" := by
  simp only [instrKeep, Bool.and_eq_true, Bool.not_eq_true'] at h
  intro hs
  rw [← String.isEmpty_iff] at hs
  exact absurd hs (by simp [h.2])

/-! ## Helper lemmas: nutrition sub-flow -/

/-- Field projection of an estimation result. -/
def estField (e : EstResult) : NutField → Option Int
  | NutField.calories => e.calories
  | NutField.protein_g => e.protein_g
  | NutField.fat_g => e.fat_g
  | NutField.carbs_g => e.carbs_g

theorem mem_missingNutritionFields (ex : Option Nutrition) (fld : NutField) :
    fld ∈ missingNutritionFields ex ↔ nutVal ex fld = none := by
  cases ex with
  | none => cases fld <;> simp [missingNutritionFields, nutVal]
  | some o =>
    cases fld <;>
      simp only [missingNutritionFields, nutVal, List.mem_append, List.mem_singleton,
        Option.bind_some] <;>
      split <;> split <;> split <;> split <;> simp_all

/-- Every non-null estimated field was one of the requested (missing)
fields. -/
theorem estField_sub_missing (out : EstApiOutcome) (sv : Option Int)
    (missing : List NutField) (e : EstResult) (fld : NutField) (v : Int)
    (h : estimateNutritionFromIngredients out sv missing = Except.ok e)
    (hf : estField e fld = some v) : fld ∈ missing := by
  cases out <;>
    simp only [estimateNutritionFromIngredients] at h
  case keyMissing => cases h
  case rateLimit => cases h; cases fld <;> simp [estField] at hf
  case httpError => cases h; cases fld <;> simp [estField] at hf
  case parseFail => cases h; cases fld <;> simp [estField] at hf
  case parsed c p f cb =>
    cases h
    cases fld <;>
      simp only [estField] at hf
    all_goals
      revert hf
      split <;> intro hf <;> simp_all [List.elem_iff]
  case parseFallback c p f cb =>
    revert h
    split
    · intro h; cases h; cases fld <;> simp [estField] at hf
    · intro h
      cases h
      cases fld <;>
        revert hf <;>
        simp only [estField] <;>
        split <;> intro hf <;> simp_all [List.elem_iff]

/-- An estimation result carrying at least one value also carries the serving
count it used. -/
theorem est_some_field_servings (out : EstApiOutcome) (sv : Option Int)
    (missing : List NutField) (e : EstResult)
    (h : estimateNutritionFromIngredients out sv missing = Except.ok e)
    (hf : (e.calories.isSome || e.protein_g.isSome ||
           e.fat_g.isSome || e.carbs_g.isSome) = true) :
    e.servings_used.isSome = true := by
  cases out <;> simp only [estimateNutritionFromIngredients] at h
  case keyMissing => cases h
  case rateLimit => cases h; simp at hf
  case httpError => cases h; simp at hf
  case parseFail => cases h; simp at hf
  case parsed c p f cb => cases h; simp
  case parseFallback c p f cb =>
    revert h
    split
    · intro h; cases h; simp at hf
    · intro h; cases h; simp

theorem jsNullish_none (a : Option Int) : jsNullish a none = a := by
  cases a <;> rfl

theorem nutVal_some (n : Nutrition) (fld : NutField) :
    nutVal (some n) fld =
      (match fld with
       | NutField.calories => n.calories
       | NutField.protein_g => n.protein_g
       | NutField.fat_g => n.fat_g
       | NutField.carbs_g => n.carbs_g) := by
  cases fld <;> rfl

theorem mergeNutrition_val (ex : Option Nutrition) (est : EstResult) (fld : NutField) :
    nutVal (some (mergeNutrition ex est)) fld = jsNullish (nutVal ex fld) (estField est fld) := by
  cases fld <;> rfl

/-! ## Helper lemmas: post-processing and the retry loop -/

theorem postProcess_instructions (out : EstApiOutcome) (r : Recipe) :
    (postProcess out r).instructions = r.instructions := by
  simp only [postProcess]
  split
  · rfl
  · split
    · rfl
    · split <;> rfl

theorem postProcess_servings (out : EstApiOutcome) (r : Recipe) :
    (postProcess out r).servings = r.servings := by
  simp only [postProcess]
  split
  · rfl
  · split
    · rfl
    · split <;> rfl

theorem attemptExtraction_ok_inv (env : Env) (n : Nat) (r : Recipe)
    (h : attemptExtraction env n = Except.ok r) :
    ∃ j nr,
      env.attemptRaw n = Except.ok j ∧
      validateAndNormalizeRecipe j = Except.ok nr ∧
      nr.instructions.isEmpty = false ∧
      r = postProcess (env.estimate n) nr := by
  unfold attemptExtraction at h
  revert h
  split
  · intro h; cases h
  · split
    · intro h; cases h
    · split
      · intro h; cases h
      · intro h
        cases h
        exact ⟨_, _, by assumption, by assumption, by simp_all, rfl⟩

theorem attemptExtraction_ok_instructions (env : Env) (n : Nat) (r : Recipe)
    (h : attemptExtraction env n = Except.ok r) :
    r.instructions ≠ [] ∧ ∀ i ∈ r.instructions, jsTrim i.text ≠ "" := by
  obtain ⟨j, nr, _, hnorm, hne, hr⟩ := attemptExtraction_ok_inv env n r h
  subst hr
  rw [postProcess_instructions]
  constructor
  · intro hnil
    rw [hnil] at hne
    simp at hne
  · intro i hi
    exact instrKeep_trim i (normalize_instructions_keep j nr hnorm i hi)

theorem secondAttempt_ok (env : Env) (r : Recipe)
    (h : (secondAttempt env).1 = Except.ok r) : attemptExtraction env 2 = Except.ok r := by
  unfold secondAttempt at h
  revert h
  split
  · split
    · intro h; cases h
    · intro h; cases h; assumption
  · intro h; cases h

theorem run_ok_attempt (env : Env) (r : Recipe)
    (h : (extractRecipeFromImageRun env).1 = Except.ok r) :
    attemptExtraction env 1 = Except.ok r ∨ attemptExtraction env 2 = Except.ok r := by
  unfold extractRecipeFromImageRun at h
  cases hA : attemptExtraction env 1 with
  | ok r1 =>
    simp only [hA] at h
    by_cases hemp : r1.instructions.isEmpty = true
    · rw [if_pos hemp] at h
      exact Or.inr (secondAttempt_ok env r h)
    · rw [if_neg hemp] at h
      simp only at h
      cases h
      exact Or.inl rfl
  | error e =>
    simp only [hA] at h
    exact Or.inr (secondAttempt_ok env r h)

/-! ## Claims -/

/-- Claim C1: for every recipe successfully returned by the extraction
pipeline (`extractRecipeFromImage`), the instructions list contains at least
one entry and every entry's text is non-empty after trimming; an extraction
whose normalized instructions list is empty is treated as a failure, never
returned as a valid recipe. -/
theorem C1_instruction_invariant (env : Env) (r : Recipe)
    (h : extractRecipeFromImage env = Except.ok r) :
    r.instructions ≠ [] ∧ ∀ i ∈ r.instructions, jsTrim i.text ≠ "" := by
  rcases run_ok_attempt env r h with hA | hA
  · exact attemptExtraction_ok_instructions env 1 r hA
  · exact attemptExtraction_ok_instructions env 2 r hA

/-- Witness oracle for C1: a model answer carrying one instruction. -/
def C1env : Env :=
  { attemptRaw := fun _ =>
      Except.ok (Json.obj
        [("recipe_name", Json.str "Soup"),
         ("instructions", Json.arr
           [Json.obj [("step_number", Json.num 1), ("text", Json.str "Boil water")]])])
    estimate := fun _ => EstApiOutcome.keyMissing }

/-- The recipe `C1env` extracts. -/
def C1recipe : Recipe :=
  { recipe_name := "Soup", author := none, description := none, link := none,
    servings := none, prep_time_minutes := none, cook_time_minutes := none,
    ingredients := [], instructions := [⟨1, "Boil water"⟩], nutrition := none,
    genreOfFood := none, typeOfDish := none, methodOfCooking := none,
    authorsNotes := none }

/-- Witness for C1 at a concrete oracle. -/
theorem C1_instruction_invariant_witness :
    C1recipe.instructions ≠ [] ∧ ∀ i ∈ C1recipe.instructions, jsTrim i.text ≠ "" :=
  C1_instruction_invariant C1env C1recipe rfl

/-- A normalized recipe carrying the estimation provenance flags, the shape
`extractRecipeFromImage` hands to the scan route after a successful
estimation. -/
def C2recipe : Recipe :=
  { recipe_name := "Tomato Soup", author := none, description := none, link := none,
    servings := some 4, prep_time_minutes := none, cook_time_minutes := none,
    ingredients := [⟨"2", "cups", "tomatoes", ""⟩],
    instructions := [⟨1, "Simmer."⟩],
    nutrition := some ⟨some 100, some 5, some 2, some 10⟩,
    nutrition_ai_estimated := true, nutrition_servings_used := some 4,
    genreOfFood := none, typeOfDish := none, methodOfCooking := none,
    authorsNotes := none }

/-- Claim C2 (refuted by this evaluation): the cache round-trip is supposed to
preserve every normalized field, provenance flags included.
`saveCachedRecipe` serializes only the four numeric nutrition fields, while
`getCachedRecipe` reads the flags from inside that blob, so a recipe saved
with `nutrition_ai_estimated = true` and `nutrition_servings_used = 4` comes
back with `false` and `null`; all other normalized fields survive. -/
theorem C2_cache_roundtrip_drops_flags :
    getCachedRecipe (saveCachedRecipe [] "h1" C2recipe "u1") "h1" =
      some { C2recipe with nutrition_ai_estimated := false,
                           nutrition_servings_used := none } ∧
    C2recipe.nutrition_ai_estimated = true ∧
    C2recipe.nutrition_servings_used = some 4 :=
  ⟨rfl, rfl, rfl⟩

/-- Claim C3: if every extraction attempt yields zero instructions (the model
always returns an empty or all-empty instructions list),
`extractRecipeFromImage` performs exactly 2 extraction attempts — never 1,
never 3 or more — and then fails with a terminal error instead of returning a
recipe. -/
theorem C3_retry_termination (env : Env)
    (h : ∀ n, ∃ j nr, env.attemptRaw n = Except.ok j ∧
        validateAndNormalizeRecipe j = Except.ok nr ∧ nr.instructions = []) :
    (extractRecipeFromImageRun env).2 = 2 ∧
    ∃ e, (extractRecipeFromImageRun env).1 = Except.error e := by
  have hA : ∀ n, attemptExtraction env n = Except.error ExtractError.instructionsMissingRetry := by
    intro n
    obtain ⟨j, nr, hj, hnr, hni⟩ := h n
    simp only [attemptExtraction, hj, hnr]
    simp [hni]
  unfold extractRecipeFromImageRun secondAttempt
  rw [hA 1, hA 2]
  exact ⟨rfl, ExtractError.instructionsMissingRetry, rfl⟩

/-- Witness oracle for C3: every attempt parses to a payload whose
instructions array is empty. -/
def C3env : Env :=
  { attemptRaw := fun _ => Except.ok (Json.obj [("instructions", Json.arr [])])
    estimate := fun _ => EstApiOutcome.keyMissing }

/-- The normalized form of `C3env`'s constant payload. -/
def C3norm : Recipe :=
  { recipe_name := "Untitled Recipe", author := none, description := none, link := none,
    servings := none, prep_time_minutes := none, cook_time_minutes := none,
    ingredients := [], instructions := [], nutrition := none,
    genreOfFood := none, typeOfDish := none, methodOfCooking := none,
    authorsNotes := none }

/-- Witness for C3 at a concrete always-empty oracle. -/
theorem C3_retry_termination_witness :
    (extractRecipeFromImageRun C3env).2 = 2 ∧
    ∃ e, (extractRecipeFromImageRun C3env).1 = Except.error e :=
  C3_retry_termination C3env (fun _ => ⟨_, C3norm, rfl, rfl, rfl⟩)

/-- Counterexample to claim C4: `validateTypeOfDishArray` does not
deduplicate, so the spec's example input yields `["Soup", "Soup", "Bowl"]`,
not `["Soup", "Bowl", "Salad"]`. -/
theorem C4_dish_types_counterexample :
    validateTypeOfDishArray ["Soup", "NotARealType", "Soup", "Bowl", "Salad", "Pasta"] =
      ["Soup", "Soup", "Bowl"] ∧
    (["Soup", "Soup", "Bowl"] : List String) ≠ ["Soup", "Bowl", "Salad"] := by
  constructor
  · rfl
  · decide

/-- Claim C4 as amended: `validateTypeOfDishArray` keeps only members of the
closed dish-type vocabulary, preserves input order (the result is a sublist
of the input), never errors and truncates to at most 3 entries — but it does
not deduplicate, so the spec's example yields `["Soup", "Soup", "Bowl"]`. -/
theorem C4_dish_types_amended (values : List String) :
    (validateTypeOfDishArray values).Sublist values ∧
    (validateTypeOfDishArray values).all isValidTypeOfDish = true ∧
    (validateTypeOfDishArray values).length ≤ 3 ∧
    validateTypeOfDishArray ["Soup", "NotARealType", "Soup", "Bowl", "Salad", "Pasta"] =
      ["Soup", "Soup", "Bowl"] := by
  refine ⟨?_, ?_, ?_, rfl⟩
  · exact (List.take_sublist 3 _).trans (List.filter_sublist values)
  · rw [List.all_eq_true]
    intro x hx
    exact (List.mem_filter.mp ((List.take_sublist 3 _).subset hx)).2
  · simp [validateTypeOfDishArray, List.length_take]

/-- Claim C5 evaluated on the code (code bug): the serving-range regex
`/(\d+)\s*[-–—to]\s*(\d+)/i` uses a character class, so the documented
`"4 to 6"` form never matches as a range and falls through to the
single-number match, yielding 4 where the spec (and the code's own comment)
require the rounded average 5.  The hyphen form, the plain number, the
default and the extract-side behaviour on `null` all match the claim. -/
theorem C5_serving_parse_eval :
    parseServingsForNutrition (JsPrim.str "4-6") = 5 ∧
    parseServingsForNutrition (JsPrim.str "4") = 4 ∧
    parseServingsForNutrition JsPrim.null = 4 ∧
    parseServingsForNutrition (JsPrim.str "4 to 6") = 4 ∧
    parseServingsUsedExtract JsPrim.null = none := by
  refine ⟨?_, ?_, rfl, ?_, rfl⟩ <;> decide

/-- Claim C6: merging keeps every pre-existing non-null nutrition value and
uses the estimated value exactly when the pre-existing value is null (or the
whole nutrition object is absent). -/
theorem C6_nutrition_merge_precedence (ex : Option Nutrition) (est : EstResult) :
    ((∀ v, nutVal ex NutField.calories = some v →
        (mergeNutrition ex est).calories = some v) ∧
      (nutVal ex NutField.calories = none →
        (mergeNutrition ex est).calories = est.calories)) ∧
    ((∀ v, nutVal ex NutField.protein_g = some v →
        (mergeNutrition ex est).protein_g = some v) ∧
      (nutVal ex NutField.protein_g = none →
        (mergeNutrition ex est).protein_g = est.protein_g)) ∧
    ((∀ v, nutVal ex NutField.fat_g = some v →
        (mergeNutrition ex est).fat_g = some v) ∧
      (nutVal ex NutField.fat_g = none →
        (mergeNutrition ex est).fat_g = est.fat_g)) ∧
    ((∀ v, nutVal ex NutField.carbs_g = some v →
        (mergeNutrition ex est).carbs_g = some v) ∧
      (nutVal ex NutField.carbs_g = none →
        (mergeNutrition ex est).carbs_g = est.carbs_g)) := by
  refine ⟨⟨?_, ?_⟩, ⟨?_, ?_⟩, ⟨?_, ?_⟩, ⟨?_, ?_⟩⟩ <;>
    first
    | (intro v hv; simp [mergeNutrition, jsNullish, hv])
    | (intro hv; simp [mergeNutrition, jsNullish, hv])

/-- The spec's merge example: existing calories 200, all other fields null. -/
def C6existing : Option Nutrition := some ⟨some 200, none, none, none⟩

/-- The spec's merge example: estimate 999 calories, 10 g protein, 5 g fat,
20 g carbs. -/
def C6estimate : EstResult := ⟨some 999, some 10, some 5, some 20, some 4⟩

/-- Witness for C6 on the spec's concrete example. -/
theorem C6_nutrition_merge_precedence_witness :
    (mergeNutrition C6existing C6estimate).calories = some 200 ∧
    (mergeNutrition C6existing C6estimate).protein_g = some 10 ∧
    (mergeNutrition C6existing C6estimate).fat_g = some 5 ∧
    (mergeNutrition C6existing C6estimate).carbs_g = some 20 :=
  ⟨(C6_nutrition_merge_precedence C6existing C6estimate).1.1 200 rfl,
   (C6_nutrition_merge_precedence C6existing C6estimate).2.1.2 rfl,
   (C6_nutrition_merge_precedence C6existing C6estimate).2.2.1.2 rfl,
   (C6_nutrition_merge_precedence C6existing C6estimate).2.2.2.2 rfl⟩

/-- The estimation sub-call fails or produces no values: it either throws, or
returns a result with all four nutrition fields null (which is what a
rate-limited call returns). -/
def estYieldsNoValues (out : EstApiOutcome) (sv : Option Int) (missing : List NutField) : Prop :=
  estimateNutritionFromIngredients out sv missing = Except.error () ∨
  ∃ e, estimateNutritionFromIngredients out sv missing = Except.ok e ∧
    e.calories = none ∧ e.protein_g = none ∧ e.fat_g = none ∧ e.carbs_g = none

theorem postProcess_noValues (out : EstApiOutcome) (r : Recipe)
    (hno : estYieldsNoValues out (parseServingsUsedExtract (jsPrimOfOptInt r.servings))
      (missingNutritionFields r.nutrition)) :
    (∀ fld, nutVal (postProcess out r).nutrition fld = nutVal r.nutrition fld) ∧
    (postProcess out r).nutrition_ai_estimated = r.nutrition_ai_estimated ∧
    (postProcess out r).nutrition_servings_used = r.nutrition_servings_used := by
  simp only [postProcess]
  by_cases hm : (missingNutritionFields r.nutrition).isEmpty = true
  · rw [if_pos hm]
    exact ⟨fun _ => rfl, rfl, rfl⟩
  · rw [if_neg hm]
    rcases hno with herr | ⟨e, he, hc, hp, hf, hcb⟩
    · simp [herr]
    · simp only [he]
      have hhe : (e.calories.isSome || e.protein_g.isSome ||
          e.fat_g.isSome || e.carbs_g.isSome) = false := by
        rw [hc, hp, hf, hcb]; rfl
      rw [if_neg (by simp [hhe])]
      refine ⟨fun fld => ?_, rfl, rfl⟩
      show nutVal (some (mergeNutrition r.nutrition e)) fld = nutVal r.nutrition fld
      rw [mergeNutrition_val]
      have hef : estField e fld = none := by
        cases fld <;> simp [estField, hc, hp, hf, hcb]
      rw [hef, jsNullish_none]

theorem postProcess_flag_true (out : EstApiOutcome) (r : Recipe)
    (hr : r.nutrition_ai_estimated = false)
    (hflag : (postProcess out r).nutrition_ai_estimated = true) :
    (∃ fld v, nutVal r.nutrition fld = none ∧
      nutVal (postProcess out r).nutrition fld = some v) ∧
    ((postProcess out r).nutrition_servings_used).isSome = true := by
  revert hflag
  simp only [postProcess]
  by_cases hm : (missingNutritionFields r.nutrition).isEmpty = true
  · rw [if_pos hm]
    intro hflag
    rw [hr] at hflag
    cases hflag
  · rw [if_neg hm]
    cases hcall : estimateNutritionFromIngredients out
        (parseServingsUsedExtract (jsPrimOfOptInt r.servings))
        (missingNutritionFields r.nutrition) with
    | error e =>
      dsimp only
      intro hflag
      rw [hr] at hflag
      cases hflag
    | ok e =>
      dsimp only
      by_cases hhe : (e.calories.isSome || e.protein_g.isSome ||
          e.fat_g.isSome || e.carbs_g.isSome) = true
      · rw [if_pos hhe]
        intro _
        have hfv : ∃ fld v, estField e fld = some v := by
          simp only [Bool.or_eq_true, Option.isSome_iff_exists] at hhe
          rcases hhe with ((⟨v, hv⟩ | ⟨v, hv⟩) | ⟨v, hv⟩) | ⟨v, hv⟩
          · exact ⟨NutField.calories, v, hv⟩
          · exact ⟨NutField.protein_g, v, hv⟩
          · exact ⟨NutField.fat_g, v, hv⟩
          · exact ⟨NutField.carbs_g, v, hv⟩
        obtain ⟨fld, v, hv⟩ := hfv
        have hmem := estField_sub_missing out _ _ e fld v hcall hv
        have hnone := (mem_missingNutritionFields r.nutrition fld).mp hmem
        constructor
        · refine ⟨fld, v, hnone, ?_⟩
          show nutVal (some (mergeNutrition r.nutrition e)) fld = some v
          rw [mergeNutrition_val, hnone]
          simpa [jsNullish] using hv
        · show (jsNullish e.servings_used
            (parseServingsUsedExtract (jsPrimOfOptInt r.servings))).isSome = true
          obtain ⟨s, hs⟩ := Option.isSome_iff_exists.mp
            (est_some_field_servings out _ _ e hcall hhe)
          rw [hs]
          rfl
      · rw [if_neg hhe]
        intro hflag
        rw [hr] at hflag
        cases hflag

/-- Claim C7: the nutrition-estimation sub-flow is non-fatal and
flag-guarded.  Whenever attempt 1 succeeds with instructions present, the
extraction returns that recipe post-processed; if the estimation sub-call
throws or yields no values (a rate-limited call returns all nulls), every
nutrition field keeps its pre-estimation value and no provenance flag or
serving count is set; and whenever `nutrition_ai_estimated` ends up true, at
least one nutrition field actually received an estimated value and the
serving count used is recorded. -/
theorem C7_estimation_non_fatal (env : Env) (j : Json) (nr : Recipe)
    (h1 : env.attemptRaw 1 = Except.ok j)
    (h2 : validateAndNormalizeRecipe j = Except.ok nr)
    (h3 : nr.instructions.isEmpty = false)
    (h4 : nr.nutrition_ai_estimated = false) :
    extractRecipeFromImage env = Except.ok (postProcess (env.estimate 1) nr) ∧
    (estYieldsNoValues (env.estimate 1)
        (parseServingsUsedExtract (jsPrimOfOptInt nr.servings))
        (missingNutritionFields nr.nutrition) →
      (∀ fld, nutVal (postProcess (env.estimate 1) nr).nutrition fld =
          nutVal nr.nutrition fld) ∧
      (postProcess (env.estimate 1) nr).nutrition_ai_estimated = false ∧
      (postProcess (env.estimate 1) nr).nutrition_servings_used =
        nr.nutrition_servings_used) ∧
    ((postProcess (env.estimate 1) nr).nutrition_ai_estimated = true →
      (∃ fld v, nutVal nr.nutrition fld = none ∧
        nutVal (postProcess (env.estimate 1) nr).nutrition fld = some v) ∧
      ((postProcess (env.estimate 1) nr).nutrition_servings_used).isSome = true) := by
  have hAtt : attemptExtraction env 1 = Except.ok (postProcess (env.estimate 1) nr) := by
    simp only [attemptExtraction, h1, h2]
    rw [if_neg (by simp [h3])]
  refine ⟨?_, ?_, ?_⟩
  · unfold extractRecipeFromImage extractRecipeFromImageRun
    simp [hAtt, postProcess_instructions, h3]
  · intro hno
    obtain ⟨hfld, hflag, hsu⟩ := postProcess_noValues (env.estimate 1) nr hno
    exact ⟨hfld, by rw [hflag, h4], hsu⟩
  · exact postProcess_flag_true (env.estimate 1) nr h4

/-- Witness payload for C7: a recipe with instructions and no nutrition. -/
def C7json : Json :=
  Json.obj
    [("recipe_name", Json.str "Stew"),
     ("instructions", Json.arr
       [Json.obj [("step_number", Json.num 1), ("text", Json.str "Cook slowly")]])]

/-- Witness oracle for C7: attempt 1 parses `C7json`; the estimation sub-call
is rate limited. -/
def C7env : Env :=
  { attemptRaw := fun _ => Except.ok C7json
    estimate := fun _ => EstApiOutcome.rateLimit }

/-- Normalized form of `C7json`. -/
def C7recipe : Recipe :=
  { recipe_name := "Stew", author := none, description := none, link := none,
    servings := none, prep_time_minutes := none, cook_time_minutes := none,
    ingredients := [], instructions := [⟨1, "Cook slowly"⟩], nutrition := none,
    genreOfFood := none, typeOfDish := none, methodOfCooking := none,
    authorsNotes := none }

/-- Witness for C7: a rate-limited estimation sub-call leaves the extraction
successful and the provenance flag unset. -/
theorem C7_estimation_non_fatal_witness :
    extractRecipeFromImage C7env = Except.ok (postProcess (C7env.estimate 1) C7recipe) ∧
    (postProcess (C7env.estimate 1) C7recipe).nutrition_ai_estimated = false := by
  have h := C7_estimation_non_fatal C7env C7json C7recipe rfl rfl rfl rfl
  have hno : estYieldsNoValues (C7env.estimate 1)
      (parseServingsUsedExtract (jsPrimOfOptInt C7recipe.servings))
      (missingNutritionFields C7recipe.nutrition) :=
    Or.inr ⟨⟨none, none, none, none, some 4⟩, rfl, rfl, rfl, rfl, rfl⟩
  exact ⟨h.1, (h.2.1 hno).2.1⟩

/-- Success test on a normalization result. -/
def isOkE : Except JsError Recipe → Bool
  | Except.ok _ => true
  | Except.error _ => false

/-- Inputs on which `validateAndNormalizeRecipe` cannot throw: the payload is
not `null`, a truthy `recipe_name` is a string, and the `ingredients` and
`instructions` arrays contain no `null` entries. -/
def goodNormalizeInput (d : Json) : Bool :=
  jsonNonNull d &&
  (match jsOr (getFieldD d "recipe_name") (Json.str "Untitled Recipe") with
   | Json.str _ => true
   | _ => false) &&
  (match getFieldD d "ingredients" with
   | Json.arr xs => xs.all jsonNonNull
   | _ => true) &&
  (match getFieldD d "instructions" with
   | Json.arr xs => xs.all jsonNonNull
   | _ => true)

/-- Counterexample to claim C8: the normalizer is not total.  A `null` entry
in the `ingredients` array — a case the claim explicitly covers — throws a
`TypeError` at the `ing.quantity` property read instead of being coerced. -/
theorem C8_normalizer_counterexample :
    validateAndNormalizeRecipe (Json.obj [("ingredients", Json.arr [Json.null])]) =
      Except.error JsError.typeError := rfl

/-- Claim C8 as amended: the normalizer returns a `Recipe` without throwing
for every payload that is not `null`, whose truthy `recipe_name` is a string
and whose `ingredients`/`instructions` arrays contain no `null` entries;
on such inputs every malformed field is coerced to its documented default,
as the fully-wrong-typed example shows.  A `null` payload, a truthy
non-string `recipe_name`, or a `null` array entry throws a `TypeError`. -/
theorem C8_normalizer_total_amended :
    (∀ d, goodNormalizeInput d = true → isOkE (validateAndNormalizeRecipe d) = true) ∧
    validateAndNormalizeRecipe (Json.obj
      [("recipe_name", Json.bool false), ("author", Json.num 0),
       ("description", Json.null), ("link", Json.bool false),
       ("servings", Json.str "6"), ("prep_time_minutes", Json.bool true),
       ("cook_time_minutes", Json.null), ("ingredients", Json.num 5),
       ("instructions", Json.str "step"), ("nutrition", Json.bool false),
       ("genreOfFood", Json.num 2), ("typeOfDish", Json.str "Soup"),
       ("methodOfCooking", Json.arr []), ("authorsNotes", Json.num 0)]) =
      Except.ok
        { recipe_name := "Untitled Recipe", author := none, description := none,
          link := none, servings := none, prep_time_minutes := none,
          cook_time_minutes := none, ingredients := [], instructions := [],
          nutrition := none, genreOfFood := none, typeOfDish := none,
          methodOfCooking := none, authorsNotes := none } := by
  constructor
  · intro d hgood
    simp only [goodNormalizeInput, Bool.and_eq_true] at hgood
    obtain ⟨⟨⟨hnn, hrn⟩, hig⟩, hin⟩ := hgood
    have hd : validateAndNormalizeRecipe d = normalizeCore d := by
      cases d <;> simp_all [validateAndNormalizeRecipe, jsonNonNull]
    rw [hd]
    have hrnOk : ∃ rn, recipeNameComp d = Except.ok rn := by
      unfold recipeNameComp
      revert hrn
      split <;> intro hrn
      · exact ⟨_, rfl⟩
      · cases hrn
    have higOk : ∃ igs, ingredientsComp d = Except.ok igs := by
      unfold ingredientsComp
      revert hig
      split <;> intro hig
      · exact normIngrList_ok _ (by simpa [List.all_eq_true] using hig)
      · exact ⟨[], rfl⟩
    have hinOk : ∃ ins, instructionsComp d = Except.ok ins := by
      unfold instructionsComp
      revert hin
      split <;> intro hin
      · obtain ⟨l, hl⟩ := normInstrList_ok 0 _ (by simpa [List.all_eq_true] using hin)
        exact ⟨_, by rw [hl]⟩
      · exact ⟨[], rfl⟩
    obtain ⟨rn, hrn'⟩ := hrnOk
    obtain ⟨igs, hig'⟩ := higOk
    obtain ⟨ins, hin'⟩ := hinOk
    simp [normalizeCore, hrn', hig', hin', isOkE]
  · rfl

/-- Witness for the amended C8, applying the totality statement to the
fully-malformed example payload. -/
theorem C8_normalizer_total_amended_witness :
    isOkE (validateAndNormalizeRecipe (Json.obj
      [("recipe_name", Json.bool false), ("author", Json.num 0),
       ("description", Json.null), ("link", Json.bool false),
       ("servings", Json.str "6"), ("prep_time_minutes", Json.bool true),
       ("cook_time_minutes", Json.null), ("ingredients", Json.num 5),
       ("instructions", Json.str "step"), ("nutrition", Json.bool false),
       ("genreOfFood", Json.num 2), ("typeOfDish", Json.str "Soup"),
       ("methodOfCooking", Json.arr []), ("authorsNotes", Json.num 0)])) = true :=
  C8_normalizer_total_amended.1 _ rfl

/-- Claim C9: `toTitleCase` converts a string to title case (first letter of
each space-separated token capitalized, remainder lowercased) exactly when
more than half of its alphabetic characters are upper-case, and passes the
string through unchanged otherwise; in particular the spec's three examples
behave as stated. -/
theorem C9_title_case_rule :
    (∀ s : String,
      toTitleCase s =
        if 2 * upperCountSpec s > alphaCountSpec s then titleCaseSpec s else s) ∧
    toTitleCase "CHICKEN SOUP" = "Chicken Soup" ∧
    toTitleCase "Chicken Soup" = "Chicken Soup" ∧
    toTitleCase "CHICKEN soup" = "Chicken Soup" := by
  refine ⟨fun s => ?_, by decide, by decide, by decide⟩
  simp only [toTitleCase]
  have hcount : ((s.data.filter isAsciiLetter).filter isAsciiUpper).length =
      upperCountSpec s := by
    rw [filter_upper_filter_letter]
    rfl
  by_cases hs : s.isEmpty = true
  · rw [if_pos hs]
    have hse : s = "" := (String.isEmpty_iff s).mp hs
    subst hse
    rfl
  · rw [if_neg hs]
    by_cases h0 : (s.data.filter isAsciiLetter).length = 0
    · rw [if_pos h0]
      have hup : upperCountSpec s = 0 := by
        have hle := List.length_filter_le isAsciiUpper (s.data.filter isAsciiLetter)
        rw [hcount] at hle
        omega
      have hfalse : ¬(2 * upperCountSpec s > alphaCountSpec s) := by
        have : alphaCountSpec s = 0 := h0
        omega
      rw [if_neg hfalse]
    · rw [if_neg h0]
      have hiff : (2 * ((s.data.filter isAsciiLetter).filter isAsciiUpper).length >
          (s.data.filter isAsciiLetter).length) ↔
          (2 * upperCountSpec s > alphaCountSpec s) := by
        rw [hcount]
        exact Iff.rfl
      by_cases hc : 2 * upperCountSpec s > alphaCountSpec s
      · rw [if_pos (hiff.mpr hc), if_pos hc]
        exact titleCaseConvert_eq_spec s
      · rw [if_neg (fun hh => hc (hiff.mp hh)), if_neg hc]

/-- Counterexample to claim C10: the normalizer performs no sign or
integrality check, so a negative upstream number passes through — the
normalized `servings` is neither null nor a non-negative integer. -/
theorem C10_numeric_fields_counterexample :
    (validateAndNormalizeRecipe (Json.obj [("servings", Json.num (-3))])).map
        Recipe.servings = Except.ok (some (-3)) ∧
    ¬(0 ≤ (-3 : Int)) := by
  constructor
  · rfl
  · decide

/-- Claim C10 as amended: the normalized `servings`, `prep_time_minutes` and
`cook_time_minutes` each equal the upstream field's value whenever that value
is a true number — passed through unchanged, with no sign or integrality
enforcement — and are null otherwise, with no string-to-number parsing
attempted at normalization time. -/
theorem C10_numeric_fields_amended (d : Json) (r : Recipe)
    (h : validateAndNormalizeRecipe d = Except.ok r) :
    r.servings = specNumericField d "servings" ∧
    r.prep_time_minutes = specNumericField d "prep_time_minutes" ∧
    r.cook_time_minutes = specNumericField d "cook_time_minutes" := by
  obtain ⟨rn, igs, ins, _, _, _, hr⟩ :=
    normalizeCore_ok_inv d r (validateAndNormalizeRecipe_ok_core d r h)
  subst hr
  exact ⟨rfl, rfl, rfl⟩

/-- Witness payload for the amended C10: a string `servings` and a numeric
`prep_time_minutes`. -/
def C10payload : Json :=
  Json.obj [("servings", Json.str "7"), ("prep_time_minutes", Json.num 30)]

/-- Normalized form of `C10payload`: the string is not parsed, the number
passes through. -/
def C10recipe : Recipe :=
  { recipe_name := "Untitled Recipe", author := none, description := none,
    link := none, servings := none, prep_time_minutes := some 30,
    cook_time_minutes := none, ingredients := [], instructions := [],
    nutrition := none, genreOfFood := none, typeOfDish := none,
    methodOfCooking := none, authorsNotes := none }

/-- Witness for the amended C10 at a concrete payload. -/
theorem C10_numeric_fields_amended_witness :
    C10recipe.servings = specNumericField C10payload "servings" ∧
    C10recipe.servings = none ∧
    C10recipe.prep_time_minutes = specNumericField C10payload "prep_time_minutes" ∧
    C10recipe.prep_time_minutes = some 30 :=
  ⟨(C10_numeric_fields_amended C10payload C10recipe rfl).1, rfl,
   (C10_numeric_fields_amended C10payload C10recipe rfl).2.1, rfl⟩

end Pantrii
